import Mathlib

namespace SynapseEntity

/-! # Data model

A shallow embedding of `synapseclient/entity.py`.  Python dictionaries are
association lists with pairwise-distinct keys; a Python object's `__dict__`
is split into the two container fields that `Entity.__new__` always installs
(`properties` and `annotations`) plus the remaining instance fields
(`internal`).  Python exceptions are modelled with `Except`. -/

/-- Values that can appear in an entity's fields: Python scalars, lists,
plain dictionaries, and `DictObject` instances (dictionaries supporting
dotted access, from the client's `dict_object` module). -/
inductive Value where
  | str (s : String)
  | int (n : Int)
  | bool (b : Bool)
  | pynone
  | list (xs : List Value)
  | dict (entries : List (String × Value))
  | dobj (entries : List (String × Value))

abbrev AList := List (String × Value)

/-- Dictionary lookup on an association list (Python `d[k]` / `d.get(k)`). -/
def alookup : AList → String → Option Value
  | [], _ => none
  | (k1, v1) :: t, k => if k1 = k then some v1 else alookup t k

/-- Dictionary membership (Python `k in d`). -/
def acontains (l : AList) (k : String) : Bool :=
  (alookup l k).isSome

/-- Dictionary assignment (Python `d[k] = v`), replacing in place. -/
def aset : AList → String → Value → AList
  | [], k, v => [(k, v)]
  | (k1, v1) :: t, k, v => if k1 = k then (k1, v) :: t else (k1, v1) :: aset t k v

/-- Dictionary deletion: removes the binding of `k` (Python `del d[k]`,
a no-op here when `k` is absent; callers that must raise `KeyError` on an
absent key check membership first). -/
def adel : AList → String → AList
  | [], _ => []
  | (k1, v1) :: t, k => if k1 = k then t else (k1, v1) :: adel t k

/-- Dictionary key list (Python `d.keys()`). -/
def akeys (l : AList) : List String :=
  l.map Prod.fst

/-- Dictionary update (Python `d.update(m)`). -/
def aupdate (l m : AList) : AList :=
  m.foldl (fun acc kv => aset acc kv.1 kv.2) l

/-- Keys of the association list are pairwise distinct, as Python
dictionaries guarantee. -/
def aNodup : AList → Bool
  | [] => true
  | (k, _) :: t => !acontains t k && aNodup t

/-- Python exceptions that the embedded code can raise. -/
inductive PyErr where
  | keyError (k : String)
  | typeError (msg : String)
  | attributeError (msg : String)
  | exception (msg : String)

/-- `isinstance(v, collections.Mapping)`: dictionaries and `DictObject`s. -/
def isMapping : Value → Bool
  | .dict _ => true
  | .dobj _ => true
  | _ => false

/-- `isinstance(v, DictObject)`. -/
def isDobj : Value → Bool
  | .dobj _ => true
  | _ => false

/-- The entries of a mapping value; non-mappings (which Python would fail
on before reaching for their entries) contribute none. -/
def ventries : Value → AList
  | .dict l => l
  | .dobj l => l
  | _ => []

/-- Item assignment inside a mapping value, preserving its wrapper. -/
def vset (v : Value) (k : String) (x : Value) : Value :=
  match v with
  | .dict l => .dict (aset l k x)
  | .dobj l => .dobj (aset l k x)
  | w => w

/-- Item deletion inside a mapping value, preserving its wrapper. -/
def vdel (v : Value) (k : String) : Value :=
  match v with
  | .dict l => .dict (adel l k)
  | .dobj l => .dobj (adel l k)
  | w => w

/-- Python `del v[k]`: raises `KeyError` when `k` is absent and `TypeError`
when `v` is not a mapping. -/
def vdelE (v : Value) (k : String) : Except PyErr Value :=
  match v with
  | .dict l => if acontains l k then .ok (.dict (adel l k)) else .error (.keyError k)
  | .dobj l => if acontains l k then .ok (.dobj (adel l k)) else .error (.keyError k)
  | _ => .error (.typeError ("object does not support item deletion"))

/-- Python truthiness of a value (`if v:`). -/
def truthy : Value → Bool
  | .str s => !s.isEmpty
  | .int n => n != 0
  | .bool b => b
  | .pynone => false
  | .list xs => !xs.isEmpty
  | .dict l => !l.isEmpty
  | .dobj l => !l.isEmpty

/-- Truthiness of an optional argument whose Python default is `None`. -/
def truthyO : Option Value → Bool
  | none => false
  | some v => truthy v

/-- Modelled from the spec: the `DictObject` constructor from the client's
`dict_object` module (not under `src/`) coerces a mapping into the
open-ended-mapping representation that supports dotted access, copying its
entries; its behaviour on non-mappings is undefined and modelled as a
`TypeError`. -/
def dictObjectOf : Value → Except PyErr Value
  | .dict l => .ok (.dobj l)
  | .dobj l => .ok (.dobj l)
  | _ => .error (.typeError ("DictObject expects a mapping"))

/-- Modelled from the spec: `DictObject` addition used by `Entity.create`
(`properties.annotations + annotations`): combining the prototype's
annotation mapping with the supplied annotation mapping; adding `None`
yields the prototype's annotations unchanged. -/
def dobjAdd : Value → Option Value → Except PyErr Value
  | .dobj l, none => .ok (.dobj l)
  | .dobj l, some m =>
      if isMapping m then .ok (.dobj (aupdate l (ventries m)))
      else .error (.typeError ("unsupported operand type for +"))
  | _, _ => .error (.typeError ("unsupported operand type for +"))

/-! # Variant declarations and the type registry -/

/-- The concrete entity classes of the module (`Entity` and its
subclasses).  `Versionable` and `Locationable` are pure capability mixins,
not entity classes, so they are represented only through their
property-key lists below. -/
inductive EClass where
  | entity
  | project
  | folder
  | file
  | analysis
  | code
  | data
  | study
  | summary
deriving DecidableEq

/-- `Versionable._property_keys`. -/
def versionableKeys : List String :=
  ["versionNumber", "versionLabel", "versionComment", "versionUrl", "versions"]

/-- `Entity._property_keys`. -/
def entityKeys : List String :=
  ["id", "name", "description", "parentId",
   "entityType", "concreteType",
   "uri", "etag", "annotations", "accessControlList",
   "createdOn", "createdBy", "modifiedOn", "modifiedBy"]

/-- `Locationable._property_keys = Versionable._property_keys + [...]`. -/
def locationableKeys : List String :=
  versionableKeys ++ ["locations", "md5", "contentType", "s3Token"]

/-- `cls._property_keys` for each entity class. -/
def propertyKeys : EClass → List String
  | .file => entityKeys ++ versionableKeys ++ ["dataFileHandleId"]
  | .code => entityKeys ++ locationableKeys
  | .data => entityKeys ++ locationableKeys
  | .study => entityKeys ++ locationableKeys
  | .summary => entityKeys ++ versionableKeys
  | _ => entityKeys

/-- `cls._synapse_class` for each entity class. -/
def synapseClass : EClass → String
  | .entity => "org.sagebionetworks.repo.model.Entity"
  | .project => "org.sagebionetworks.repo.model.Project"
  | .folder => "org.sagebionetworks.repo.model.Folder"
  | .file => "org.sagebionetworks.repo.model.FileEntity"
  | .analysis => "org.sagebionetworks.repo.model.Analysis"
  | .code => "org.sagebionetworks.repo.model.Code"
  | .data => "org.sagebionetworks.repo.model.Data"
  | .study => "org.sagebionetworks.repo.model.Study"
  | .summary => "org.sagebionetworks.repo.model.Summary"

/-- The subclasses of `Entity` enumerated by `itersubclasses(Entity)` when
the module builds `_entity_type_to_class` (every transitive subclass;
`Entity` itself, `Versionable` and `Locationable` are not among them). -/
def registryClasses : List EClass :=
  [.project, .folder, .file, .analysis, .code, .data, .study, .summary]

/-- The registry `_entity_type_to_class`: Synapse class string to entity
class. -/
def classFor (s : String) : Option EClass :=
  registryClasses.find? (fun c => synapseClass c = s)

/-! # The Entity object -/

/-- An `Entity` instance.  `internal` holds the instance `__dict__` minus
the two container fields `properties` and `annotations`, which
`Entity.__new__` always installs and which are stored here as `props` and
`annots` (each a `Value`, normally a `DictObject`, but low-level
assignment can overwrite them with anything). -/
structure Entity where
  cls : EClass
  internal : AList
  props : Value
  annots : Value

/-- `Entity.__new__`: a fresh instance with empty `DictObject` containers
and no other instance fields. -/
def newEntity (cls : EClass) : Entity :=
  ⟨cls, [], .dobj [], .dobj []⟩

/-- `key in self.__dict__`. -/
def dictContains (e : Entity) (k : String) : Bool :=
  k = "properties" || k = "annotations" || acontains e.internal k

/-- `self.__dict__[key]`, as an optional value. -/
def dictGet (e : Entity) (k : String) : Option Value :=
  if k = "properties" then some e.props
  else if k = "annotations" then some e.annots
  else alookup e.internal k

/-- `self.__dict__[key] = value`. -/
def dictSet (e : Entity) (k : String) (v : Value) : Entity :=
  if k = "properties" then { e with props := v }
  else if k = "annotations" then { e with annots := v }
  else { e with internal := aset e.internal k v }

/-- The entries of the `properties` container. -/
def pentries (e : Entity) : AList :=
  ventries e.props

/-- The entries of the `annotations` container. -/
def aentries (e : Entity) : AList :=
  ventries e.annots

/-- Well-formed instance states: both containers are `DictObject`s (as
`__new__` guarantees and every normal operation preserves), all
dictionaries have distinct keys, and the instance `__dict__` does not
bind the names of the two containers twice. -/
def wf (e : Entity) : Bool :=
  isDobj e.props && isDobj e.annots &&
  aNodup (pentries e) && aNodup (aentries e) && aNodup e.internal &&
  !acontains e.internal "properties" && !acontains e.internal "annotations"

/-! # Accessor methods -/

/-- `Entity.__setitem__`: an existing instance field is overwritten
directly (assigning to the field literally named `annotations` first wraps
a non-`DictObject` value in a `DictObject`); otherwise a declared property
key is written into `properties`, and any other key into `annotations`. -/
def setItem (e : Entity) (k : String) (v : Value) : Except PyErr Entity :=
  if dictContains e k then
    if k = "annotations" && !isDobj v then do
      let v' ← dictObjectOf v
      .ok (dictSet e k v')
    else .ok (dictSet e k v)
  else if k ∈ propertyKeys e.cls then .ok { e with props := vset e.props k v }
  else .ok { e with annots := vset e.annots k v }

/-- `Entity.__setattr__` simply delegates to `__setitem__`. -/
def setAttr (e : Entity) (k : String) (v : Value) : Except PyErr Entity :=
  setItem e k v

/-- `Entity.__getitem__`: instance fields first, then `properties`, then
`annotations`, else `KeyError`. -/
def getItem (e : Entity) (k : String) : Except PyErr Value :=
  match dictGet e k with
  | some v => .ok v
  | none =>
    match alookup (pentries e) k with
    | some v => .ok v
    | none =>
      match alookup (aentries e) k with
      | some v => .ok v
      | none => .error (.keyError k)

/-- Attribute read: Python resolves an attribute from the instance
`__dict__` first and only invokes `Entity.__getattr__` — which delegates
to `__getitem__` — when that fails. -/
def getAttr (e : Entity) (k : String) : Except PyErr Value :=
  match dictGet e k with
  | some v => .ok v
  | none => getItem e k

/-- `Entity.__delitem__`: removes the key from `properties` if present
there, else from `annotations` if present there, else does nothing. -/
def delItem (e : Entity) (k : String) : Entity :=
  if acontains (pentries e) k then { e with props := vdel e.props k }
  else if acontains (aentries e) k then { e with annots := vdel e.annots k }
  else e

/-- `Entity.has_key`: is the key a property or annotation? -/
def has_key (e : Entity) (k : String) : Bool :=
  acontains (pentries e) k || acontains (aentries e) k

/-- `Entity.keys`: the set of property and annotation keys. -/
def keysOf (e : Entity) : List String :=
  (akeys (pentries e) ++ akeys (aentries e)).dedup

/-! # Construction -/

/-- Dictionary update inside a mapping value, preserving its wrapper. -/
def vupdate (v : Value) (m : AList) : Value :=
  match v with
  | .dict l => .dict (aupdate l m)
  | .dobj l => .dobj (aupdate l m)
  | w => w

/-- The `properties`-argument block of `Entity.__init__`: when the
argument is truthy it must be a mapping; a nested `annotations` mapping
inside it is merged into the `annotations` argument (by calling that
argument's `update` method, which raises `AttributeError` when the
argument is `None` or a string) and deleted from the properties argument
in place; the remaining entries update the instance's `properties`
container.  Returns the entity together with the final state of the
`properties` argument and of the (possibly updated) `annotations`
argument. -/
def initProps (e0 : Entity) (properties annotations : Option Value) :
    Except PyErr (Entity × Option Value × Option Value) :=
  match properties with
  | some pv =>
    if truthy pv then
      if isMapping pv then
        match alookup (ventries pv) "annotations" with
        | some nv =>
          if isMapping nv then
            match annotations with
            | some av =>
              if isMapping av then
                let av' := vupdate av (ventries nv)
                let pv' := vdel pv "annotations"
                .ok ({ e0 with props := vupdate e0.props (ventries pv') }, some pv', some av')
              else .error (.attributeError ("object has no attribute update"))
            | none => .error (.attributeError ("NoneType object has no attribute update"))
          else .ok ({ e0 with props := vupdate e0.props (ventries pv) }, some pv, annotations)
        | none => .ok ({ e0 with props := vupdate e0.props (ventries pv) }, some pv, annotations)
      else .error (.exception ("Unknown argument type: properties"))
    else .ok (e0, properties, annotations)
  | none => .ok (e0, none, annotations)

/-- The `annotations`-argument block of `Entity.__init__`: a truthy
mapping updates the instance's `annotations` container; a string is
stored under the `annotations` key of the `properties` container; any
other truthy value raises. -/
def initAnnots (e1 : Entity) (ann1 : Option Value) : Except PyErr Entity :=
  match ann1 with
  | some av =>
    if truthy av then
      if isMapping av then .ok { e1 with annots := vupdate e1.annots (ventries av) }
      else
        match av with
        | .str s => .ok { e1 with props := vset e1.props "annotations" (.str s) }
        | _ => .error (.exception ("Unknown argument type: annotations"))
    else .ok e1
  | none => .ok e1

/-- `Entity.__init__`, applied to the fresh instance made by `__new__`:
the `properties` block, then the `annotations` block, then one
`__setitem__` per keyword argument.  Returns the initialized entity
together with the final state of the `properties` argument (which
`__init__` mutates in place when it strips a nested `annotations` mapping
out of it). -/
def entityInit (cls : EClass) (properties annotations : Option Value)
    (kwargs : List (String × Value)) : Except PyErr (Entity × Option Value) := do
  let (e1, props1, ann1) ← initProps (newEntity cls) properties annotations
  let e2 ← initAnnots e1 ann1
  let e3 ← kwargs.foldlM (fun acc kv => setItem acc kv.1 kv.2) e2
  pure (e3, props1)

/-- Modelled from the spec: the parent-reference helper `id_of` from the
client's `utils` module (not under `src/`): a raw identifier string
resolves to itself, and an object exposing an identifier field resolves
to that field. -/
def id_of : Value → Except PyErr Value
  | .str s => .ok (.str s)
  | .dict l =>
      (match alookup l "id" with
       | some v => .ok v
       | none => .error (.exception ("cannot determine id")))
  | .dobj l =>
      (match alookup l "id" with
       | some v => .ok v
       | none => .error (.exception ("cannot determine id")))
  | _ => .error (.exception ("cannot determine id"))

/-- Modelled from the spec: `os.path.basename` (standard library, not
under `src/`): the base filename of a local path, i.e. the segment after
the last separator. -/
def basename : Value → Value
  | .str s => .str ((s.splitOn "/").getLastD "")
  | w => w

/-- `Project.__init__`. -/
def projectInit (name properties annotations : Option Value)
    (kwargs : List (String × Value)) : Except PyErr (Entity × Option Value) :=
  let kw := match name with
    | some nv => if truthy nv then aset kwargs "name" nv else kwargs
    | none => kwargs
  entityInit .project properties annotations
    (("entityType", .str (synapseClass .project)) :: kw)

/-- `Folder.__init__`. -/
def folderInit (name parent properties annotations : Option Value)
    (kwargs : List (String × Value)) : Except PyErr (Entity × Option Value) := do
  let kw := match name with
    | some nv => if truthy nv then aset kwargs "name" nv else kwargs
    | none => kwargs
  let kw2 ←
    (match parent with
     | some pv =>
       if truthy pv then do
         let i ← id_of pv
         pure (aset kw "parentId" i)
       else pure kw
     | none => pure kw :
     Except PyErr (List (String × Value)))
  entityInit .folder properties annotations
    (("entityType", .str (synapseClass .folder)) :: kw2)

/-- `File.__init__`: after the base initialization it installs the local
`path` as a plain instance field (internal state, never persisted).  The
`synapseStore` flag is accepted but not used by this module. -/
def fileInit (path parent : Option Value) (_synapseStore : Bool)
    (properties annotations : Option Value) (kwargs : List (String × Value)) :
    Except PyErr (Entity × Option Value) := do
  let kw := match path with
    | some pv =>
      if truthy pv && !acontains kwargs "name" then aset kwargs "name" (basename pv)
      else kwargs
    | none => kwargs
  let kw2 ←
    (match parent with
     | some pv =>
       if truthy pv then do
         let i ← id_of pv
         pure (aset kw "parentId" i)
       else pure kw
     | none => pure kw :
     Except PyErr (List (String × Value)))
  let (e, pf) ← entityInit .file properties annotations
    (("entityType", .str (synapseClass .file)) :: kw2)
  pure ({ e with internal := aset e.internal "path" (path.getD .pynone) }, pf)

/-- `cls(properties=..., annotations=...)` as invoked by `Entity.create`
and `Entity.to_entity`: dispatch to the class's own constructor with all
other arguments left at their defaults. -/
def construct (cls : EClass) (properties annotations : Option Value) :
    Except PyErr (Entity × Option Value) :=
  match cls with
  | .project => projectInit none properties annotations []
  | .folder => folderInit none none properties annotations []
  | .file => fileInit none none true properties annotations []
  | c => entityInit c properties annotations []

/-- The registry lookup performed by `Entity.create` on a mapping of
properties: the class registered for the `entityType` field, when that
field holds a registered Synapse class string. -/
def resolveFrom (l : AList) : EClass :=
  match alookup l "entityType" with
  | some (.str s) => (classFor s).getD .entity
  | _ => .entity

/-- The redirection step of `Entity.create`: when called on the base
class, `'entityType' in properties` is evaluated (raising `TypeError` on
values that support no membership test, such as `None`) and a registered
type identifier redirects construction to the matching subclass. -/
def resolveClass (cls : EClass) (properties : Option Value) : Except PyErr EClass :=
  if cls = .entity then
    match properties with
    | none => .error (.typeError ("argument of type NoneType is not iterable"))
    | some (.dict l) => .ok (resolveFrom l)
    | some (.dobj l) => .ok (resolveFrom l)
    | some (.int _) => .error (.typeError ("argument of type int is not iterable"))
    | some (.bool _) => .error (.typeError ("argument of type bool is not iterable"))
    | some .pynone => .error (.typeError ("argument of type NoneType is not iterable"))
    | some _ => .ok .entity
  else .ok cls

/-- The `properties` argument of `Entity.create` / `Entity.to_entity`:
either an existing `Entity` (used as a prototype) or a raw value. -/
inductive PropsArg where
  | ent (e : Entity)
  | val (v : Value)

/-- `Entity.create`.  Returns the new entity, paired with the final state
of the prototype when the `properties` argument was an existing entity:
`create` deletes the prototype's `id` property in place (and `__init__`
may further strip a nested `annotations` mapping from the same aliased
properties dictionary). -/
def create (cls : EClass) (properties : Option PropsArg) (annotations : Option Value) :
    Except PyErr (Entity × Option Entity) := do
  match properties with
  | some (.ent p) => do
      let comb ← dobjAdd p.annots annotations
      let props1 ← vdelE p.props "id"
      let cls2 ← resolveClass cls (some props1)
      let (e, pf) ← construct cls2 (some props1) (some comb)
      pure (e, some { p with props := pf.getD props1 })
  | some (.val v) => do
      let cls2 ← resolveClass cls (some v)
      let (e, _) ← construct cls2 (some v) annotations
      pure (e, none)
  | none => do
      let cls2 ← resolveClass cls none
      let (e, _) ← construct cls2 none annotations
      pure (e, none)

/-- `Entity.to_entity`: coerce a dictionary to an `Entity`, but pass
entities through unchanged. -/
def to_entity : PropsArg → Except PyErr Entity
  | .ent e => .ok e
  | .val v => (create .entity (some (.val v)) none).map Prod.fst

/-- Does a raw payload carry a recognized type identifier?  (Used only to
state the dispatch claim.) -/
def recognizedType (l : AList) : Bool :=
  match alookup l "entityType" with
  | some (.str s) => (classFor s).isSome
  | _ => false

/-- The entries contributed by an optional annotations argument. -/
def annEntries : Option Value → AList
  | none => []
  | some v => ventries v

/-- An optional annotations argument is either absent or a mapping. -/
def annOk : Option Value → Bool
  | none => true
  | some v => isMapping v

/-- What `__init__` leaves of a properties argument: a mapping stored
under the key `annotations` is stripped out of it. -/
def stripAnn (P : AList) : AList :=
  match alookup P "annotations" with
  | some nv => if isMapping nv then adel P "annotations" else P
  | none => P

/-- What `__init__` makes of an annotations argument `comb` given the
properties argument `P`: a mapping nested under `annotations` inside `P`
is merged into it. -/
def combineAnn (P comb : AList) : AList :=
  match alookup P "annotations" with
  | some nv => if isMapping nv then aupdate comb (ventries nv) else comb
  | none => comb

/-- The properties of a clone made by `Entity.create` from a prototype:
the prototype's properties minus the identifier and minus any mapping
stored under the key `annotations` (`__init__` merges such a mapping into
the annotations instead). -/
def cloneProps (p : Entity) : AList :=
  stripAnn (adel (pentries p) "id")

/-- The annotations of a clone made by `Entity.create` from a prototype:
the prototype's annotations combined with the supplied annotations and
with any mapping stored under the prototype's `annotations` property. -/
def cloneAnnots (p : Entity) (ann : Option Value) : AList :=
  combineAnn (adel (pentries p) "id") (aupdate (aentries p) (annEntries ann))

/-! # Association-list lemmas -/

theorem alookup_aset_self (l : AList) (k : String) (v : Value) :
    alookup (aset l k v) k = some v := by
  induction l with
  | nil => simp [aset, alookup]
  | cons hd t ih =>
    obtain ⟨k1, v1⟩ := hd
    simp only [aset]
    by_cases h1 : k1 = k
    · rw [if_pos h1]
      simp only [alookup]
      rw [if_pos h1]
    · rw [if_neg h1]
      simp only [alookup]
      rw [if_neg h1]
      exact ih

theorem alookup_aset_ne (l : AList) (j k : String) (v : Value) (h : j ≠ k) :
    alookup (aset l k v) j = alookup l j := by
  induction l with
  | nil =>
    simp only [aset, alookup]
    rw [if_neg (fun hh : k = j => h hh.symm)]
  | cons hd t ih =>
    obtain ⟨k1, v1⟩ := hd
    simp only [aset]
    by_cases h1 : k1 = k
    · rw [if_pos h1]
      subst h1
      simp only [alookup]
      rw [if_neg (fun hh : k1 = j => h hh.symm), if_neg (fun hh : k1 = j => h hh.symm)]
    · rw [if_neg h1]
      simp only [alookup]
      by_cases h2 : k1 = j
      · rw [if_pos h2, if_pos h2]
      · rw [if_neg h2, if_neg h2, ih]

theorem aset_lookup_eq (l : AList) (k : String) (v : Value)
    (h : alookup l k = some v) : aset l k v = l := by
  induction l with
  | nil => simp [alookup] at h
  | cons hd t ih =>
    obtain ⟨k1, v1⟩ := hd
    simp only [aset]
    by_cases h1 : k1 = k
    · rw [if_pos h1]
      simp only [alookup] at h
      rw [if_pos h1] at h
      injection h with h'
      rw [h']
    · rw [if_neg h1]
      simp only [alookup] at h
      rw [if_neg h1] at h
      rw [ih h]

theorem alookup_adel_ne (l : AList) (j k : String) (h : j ≠ k) :
    alookup (adel l k) j = alookup l j := by
  induction l with
  | nil => simp [adel]
  | cons hd t ih =>
    obtain ⟨k1, v1⟩ := hd
    simp only [adel]
    by_cases h1 : k1 = k
    · rw [if_pos h1]
      subst h1
      simp only [alookup]
      rw [if_neg (fun hh : k1 = j => h hh.symm)]
    · rw [if_neg h1]
      simp only [alookup]
      by_cases h2 : k1 = j
      · rw [if_pos h2, if_pos h2]
      · rw [if_neg h2, if_neg h2, ih]

theorem acontains_adel_self (l : AList) (k : String) (h : aNodup l = true) :
    acontains (adel l k) k = false := by
  induction l with
  | nil => simp [adel, acontains, alookup]
  | cons hd t ih =>
    obtain ⟨k1, v1⟩ := hd
    simp only [aNodup, Bool.and_eq_true, Bool.not_eq_true'] at h
    simp only [adel]
    by_cases h1 : k1 = k
    · rw [if_pos h1]
      rw [← h1]
      exact h.1
    · rw [if_neg h1]
      simp only [acontains, alookup]
      rw [if_neg h1]
      exact ih h.2

theorem acontains_adel_le (l : AList) (j k : String)
    (h : acontains (adel l k) j = true) : acontains l j = true := by
  induction l with
  | nil => simpa [adel] using h
  | cons hd t ih =>
    obtain ⟨k1, v1⟩ := hd
    simp only [adel] at h
    simp only [acontains, alookup]
    by_cases h1 : k1 = k
    · rw [if_pos h1] at h
      by_cases h2 : k1 = j
      · rw [if_pos h2]
        rfl
      · rw [if_neg h2]
        exact h
    · rw [if_neg h1] at h
      simp only [acontains, alookup] at h
      by_cases h2 : k1 = j
      · rw [if_pos h2]
        rfl
      · rw [if_neg h2] at h ⊢
        exact ih h

theorem aNodup_adel (l : AList) (k : String) (h : aNodup l = true) :
    aNodup (adel l k) = true := by
  induction l with
  | nil => simp [adel, aNodup]
  | cons hd t ih =>
    obtain ⟨k1, v1⟩ := hd
    simp only [aNodup, Bool.and_eq_true, Bool.not_eq_true'] at h
    simp only [adel]
    by_cases h1 : k1 = k
    · rw [if_pos h1]
      exact h.2
    · rw [if_neg h1]
      simp only [aNodup, Bool.and_eq_true, Bool.not_eq_true']
      refine ⟨?_, ih h.2⟩
      cases hc : acontains (adel t k) k1 with
      | false => rfl
      | true =>
        have hx := acontains_adel_le t k1 k hc
        rw [h.1] at hx
        cases hx

theorem acontains_aset (l : AList) (j k : String) (v : Value) :
    acontains (aset l k v) j = (acontains l j || decide (j = k)) := by
  by_cases h : j = k
  · subst h
    simp [acontains, alookup_aset_self]
  · simp [acontains, alookup_aset_ne l j k v h, h]

theorem aNodup_aset (l : AList) (k : String) (v : Value) (h : aNodup l = true) :
    aNodup (aset l k v) = true := by
  induction l with
  | nil => simp [aset, aNodup, acontains, alookup]
  | cons hd t ih =>
    obtain ⟨k1, v1⟩ := hd
    simp only [aNodup, Bool.and_eq_true, Bool.not_eq_true'] at h
    simp only [aset]
    by_cases h1 : k1 = k
    · rw [if_pos h1]
      simp only [aNodup, Bool.and_eq_true, Bool.not_eq_true']
      exact h
    · rw [if_neg h1]
      simp only [aNodup, Bool.and_eq_true, Bool.not_eq_true']
      refine ⟨?_, ih h.2⟩
      rw [acontains_aset, h.1]
      simp [fun hh : k1 = k => h1 hh]

theorem aNodup_aupdate (l m : AList) (h : aNodup l = true) :
    aNodup (aupdate l m) = true := by
  induction m generalizing l with
  | nil => simpa [aupdate] using h
  | cons hd t ih =>
    obtain ⟨k, v⟩ := hd
    have hm : aupdate l ((k, v) :: t) = aupdate (aset l k v) t := by
      simp [aupdate]
    rw [hm]
    exact ih (aset l k v) (aNodup_aset l k v h)

theorem acontains_append (l1 l2 : AList) (j : String) :
    acontains (l1 ++ l2) j = (acontains l1 j || acontains l2 j) := by
  induction l1 with
  | nil => simp [acontains, alookup]
  | cons hd t ih =>
    obtain ⟨k1, v1⟩ := hd
    simp only [List.cons_append, acontains, alookup]
    by_cases h1 : k1 = j
    · rw [if_pos h1, if_pos h1]
      rfl
    · rw [if_neg h1, if_neg h1]
      exact ih

theorem aset_append (l : AList) (k : String) (v : Value)
    (h : acontains l k = false) : aset l k v = l ++ [(k, v)] := by
  induction l with
  | nil => simp [aset]
  | cons hd t ih =>
    obtain ⟨k1, v1⟩ := hd
    simp only [acontains, alookup] at h
    by_cases h1 : k1 = k
    · rw [if_pos h1] at h
      simp at h
    · rw [if_neg h1] at h
      simp only [aset]
      rw [if_neg h1]
      rw [ih h]
      simp

theorem acontains_iff_mem (l : AList) (k : String) :
    acontains l k = true ↔ k ∈ akeys l := by
  induction l with
  | nil => simp [acontains, alookup, akeys]
  | cons hd t ih =>
    obtain ⟨k1, v1⟩ := hd
    simp only [acontains, alookup, akeys, List.map_cons, List.mem_cons]
    by_cases h1 : k1 = k
    · rw [if_pos h1]
      simp [h1]
    · rw [if_neg h1]
      simp only [acontains, akeys] at ih
      rw [ih]
      constructor
      · exact fun hm => Or.inr hm
      · rintro (hk | hm)
        · exact absurd hk.symm h1
        · exact hm

theorem aupdate_of_disjoint (m : AList) :
    ∀ l : AList, (∀ kv ∈ m, acontains l kv.1 = false) → aNodup m = true →
    aupdate l m = l ++ m := by
  induction m with
  | nil => intro l _ _; simp [aupdate]
  | cons hd t ih =>
    intro l hdisj hnd
    obtain ⟨k, v⟩ := hd
    simp [aNodup] at hnd
    have h1 : aset l k v = l ++ [(k, v)] := by
      exact aset_append l k v (hdisj (k, v) (by simp))
    have hstep : aupdate l ((k, v) :: t) = aupdate (aset l k v) t := by
      simp [aupdate]
    have hdis2 : ∀ kv ∈ t, acontains (l ++ [(k, v)]) kv.1 = false := by
      intro kv hkv
      rw [acontains_append]
      simp only [Bool.or_eq_false_iff]
      refine ⟨hdisj kv (by simp [hkv]), ?_⟩
      have hne : kv.1 ≠ k := by
        intro hh
        have hmem : k ∈ akeys t := by
          rw [← hh]
          exact List.mem_map_of_mem Prod.fst hkv
        rw [← acontains_iff_mem, hnd.1] at hmem
        cases hmem
      simp only [acontains, alookup]
      rw [if_neg (fun hh : k = kv.1 => hne hh.symm)]
      rfl
    rw [hstep, h1, ih (l ++ [(k, v)]) hdis2 hnd.2, List.append_assoc]
    simp

theorem aupdate_nil (l : AList) (h : aNodup l = true) : aupdate [] l = l := by
  have := aupdate_of_disjoint l [] (fun kv _ => by simp [acontains, alookup]) h
  simpa using this

/-! # Structural lemmas about the embedded operations -/

theorem except_bind_ok {α β : Type} (a : α) (f : α → Except PyErr β) :
    (Except.ok a >>= f) = f a := rfl

theorem except_bind_error {α β : Type} (msg : PyErr) (f : α → Except PyErr β) :
    ((Except.error msg : Except PyErr α) >>= f) = Except.error msg := rfl

theorem except_pure_bind {α β : Type} (a : α) (f : α → Except PyErr β) :
    ((pure a : Except PyErr α) >>= f) = f a := rfl

theorem wf_dest (e : Entity) (h : wf e = true) :
    (∃ pl, e.props = .dobj pl ∧ aNodup pl = true) ∧
    (∃ al, e.annots = .dobj al ∧ aNodup al = true) ∧
    aNodup e.internal = true ∧
    acontains e.internal "properties" = false ∧
    acontains e.internal "annotations" = false := by
  simp only [wf, Bool.and_eq_true, Bool.not_eq_true'] at h
  obtain ⟨⟨⟨⟨⟨⟨hp, ha⟩, hnp⟩, hna⟩, hni⟩, h1⟩, h2⟩ := h
  refine ⟨?_, ?_, hni, h1, h2⟩
  · cases hv : e.props <;> rw [hv] at hp <;> simp [isDobj] at hp ⊢
    simp only [pentries] at hnp
    rw [hv] at hnp
    simpa [ventries] using hnp
  · cases hv : e.annots <;> rw [hv] at ha <;> simp [isDobj] at ha ⊢
    simp only [aentries] at hna
    rw [hv] at hna
    simpa [ventries] using hna

theorem dictSet_cls (e : Entity) (k : String) (v : Value) :
    (dictSet e k v).cls = e.cls := by
  simp only [dictSet]
  by_cases h1 : k = "properties"
  · rw [if_pos h1]
  · rw [if_neg h1]
    by_cases h2 : k = "annotations"
    · rw [if_pos h2]
    · rw [if_neg h2]

theorem setItem_cls (e : Entity) (k : String) (v : Value) (e' : Entity)
    (h : setItem e k v = .ok e') : e'.cls = e.cls := by
  simp only [setItem] at h
  split at h
  · split at h
    · cases hv : dictObjectOf v <;> rw [hv] at h <;>
        simp only [except_bind_ok, except_bind_error] at h
      · cases h
      · injection h with h'
        rw [← h', dictSet_cls]
    · injection h with h'
      rw [← h', dictSet_cls]
  · split at h <;> injection h with h' <;> rw [← h']

theorem foldSetItem_cls (kw : List (String × Value)) :
    ∀ (e e' : Entity),
    kw.foldlM (fun acc kv => setItem acc kv.1 kv.2) e = .ok e' → e'.cls = e.cls := by
  induction kw with
  | nil =>
    intro e e' h
    simp only [List.foldlM_nil] at h
    injection h with h'
    rw [h']
  | cons hd t ih =>
    intro e e' h
    simp only [List.foldlM_cons] at h
    cases hs : setItem e hd.1 hd.2 with
    | error msg => rw [hs] at h; cases h
    | ok e1 =>
      rw [hs] at h
      simp only [except_bind_ok] at h
      rw [ih e1 e' h, setItem_cls e hd.1 hd.2 e1 hs]

theorem initProps_cls (e0 : Entity) (properties annotations : Option Value)
    (e1 : Entity) (p1 a1 : Option Value)
    (h : initProps e0 properties annotations = .ok (e1, p1, a1)) : e1.cls = e0.cls := by
  simp only [initProps] at h
  split at h
  · split at h
    · split at h
      · split at h
        · split at h
          · split at h
            · split at h
              · injection h with h'
                cases h'
                rfl
              · cases h
            · cases h
          · injection h with h'
            cases h'
            rfl
        · injection h with h'
          cases h'
          rfl
      · cases h
    · injection h with h'
      cases h'
      rfl
  · injection h with h'
    cases h'
    rfl

theorem initAnnots_cls (e1 : Entity) (ann1 : Option Value) (e2 : Entity)
    (h : initAnnots e1 ann1 = .ok e2) : e2.cls = e1.cls := by
  simp only [initAnnots] at h
  split at h
  · split at h
    · split at h
      · injection h with h'
        rw [← h']
      · split at h
        · injection h with h'
          rw [← h']
        · cases h
    · injection h with h'
      rw [← h']
  · injection h with h'
    rw [← h']

theorem entityInit_cls (cls : EClass) (properties annotations : Option Value)
    (kwargs : List (String × Value)) (e : Entity) (pf : Option Value)
    (h : entityInit cls properties annotations kwargs = .ok (e, pf)) : e.cls = cls := by
  simp only [entityInit] at h
  cases h1 : initProps (newEntity cls) properties annotations with
  | error msg => rw [h1] at h; cases h
  | ok r1 =>
    obtain ⟨e1, p1, a1⟩ := r1
    rw [h1] at h
    simp only [except_bind_ok] at h
    cases h2 : initAnnots e1 a1 with
    | error msg => rw [h2] at h; cases h
    | ok e2 =>
      rw [h2] at h
      simp only [except_bind_ok] at h
      cases h3 : List.foldlM (fun acc kv => setItem acc kv.1 kv.2) e2 kwargs with
      | error msg => rw [h3] at h; cases h
      | ok e3 =>
        rw [h3] at h
        simp only [except_bind_ok] at h
        injection h with h'
        injection h' with he hpf
        rw [← he]
        rw [foldSetItem_cls kwargs e2 e3 h3, initAnnots_cls e1 a1 e2 h2,
          initProps_cls (newEntity cls) properties annotations e1 p1 a1 h1]
        rfl

theorem construct_cls (cls : EClass) (properties annotations : Option Value)
    (e : Entity) (pf : Option Value)
    (h : construct cls properties annotations = .ok (e, pf)) : e.cls = cls := by
  cases cls
  case entity => exact entityInit_cls _ _ _ _ _ _ h
  case project =>
    simp only [construct, projectInit] at h
    exact entityInit_cls _ _ _ _ _ _ h
  case folder =>
    simp only [construct, folderInit, except_pure_bind] at h
    exact entityInit_cls _ _ _ _ _ _ h
  case file =>
    simp only [construct, fileInit, except_pure_bind] at h
    cases hi : entityInit .file properties annotations
        [("entityType", .str (synapseClass .file))] with
    | error msg => rw [hi] at h; cases h
    | ok r =>
      obtain ⟨ei, pfi⟩ := r
      rw [hi] at h
      simp only [except_bind_ok] at h
      injection h with h'
      injection h' with he hpf
      rw [← he]
      show ei.cls = EClass.file
      exact entityInit_cls _ _ _ _ _ _ hi
  case analysis => exact entityInit_cls _ _ _ _ _ _ h
  case code => exact entityInit_cls _ _ _ _ _ _ h
  case data => exact entityInit_cls _ _ _ _ _ _ h
  case study => exact entityInit_cls _ _ _ _ _ _ h
  case summary => exact entityInit_cls _ _ _ _ _ _ h

theorem alookup_none_of_acontains_false (l : AList) (k : String)
    (h : acontains l k = false) : alookup l k = none := by
  cases hl : alookup l k with
  | none => rfl
  | some v => rw [acontains, hl] at h; cases h

theorem aNodup_stripAnn (P : AList) (h : aNodup P = true) :
    aNodup (stripAnn P) = true := by
  simp only [stripAnn]
  cases alookup P "annotations" with
  | none => exact h
  | some nv =>
    cases hm : isMapping nv with
    | false => simpa [hm] using h
    | true => simpa [hm] using aNodup_adel P "annotations" h

theorem aNodup_combineAnn (P comb : AList) (h : aNodup comb = true) :
    aNodup (combineAnn P comb) = true := by
  simp only [combineAnn]
  cases alookup P "annotations" with
  | none => exact h
  | some nv =>
    cases hm : isMapping nv with
    | false => simpa [hm] using h
    | true => simpa [hm] using aNodup_aupdate comb (ventries nv) h

theorem alookup_stripAnn_ne (P : AList) (j : String) (hj : j ≠ "annotations") :
    alookup (stripAnn P) j = alookup P j := by
  simp only [stripAnn]
  cases alookup P "annotations" with
  | none => rfl
  | some nv =>
    cases hm : isMapping nv with
    | false => simp [hm]
    | true => simpa [hm] using alookup_adel_ne P j "annotations" hj

theorem classFor_eq (s : String) (c : EClass) (h : classFor s = some c) :
    synapseClass c = s := by
  simp only [classFor] at h
  have hp := List.find?_some h
  simp only [decide_eq_true_eq] at hp
  exact hp

theorem resolveFrom_lookup (P : AList) (c : EClass) (h : resolveFrom P = c)
    (hc : c ≠ .entity) :
    alookup P "entityType" = some (.str (synapseClass c)) := by
  simp only [resolveFrom] at h
  cases ha : alookup P "entityType" with
  | none =>
    rw [ha] at h
    have h' : EClass.entity = c := h
    exact absurd h'.symm hc
  | some v =>
    rw [ha] at h
    cases v <;> try { have h' : EClass.entity = c := h; exact absurd h'.symm hc }
    case str s =>
      have h' : (classFor s).getD EClass.entity = c := h
      cases hcf : classFor s with
      | none =>
        rw [hcf] at h'
        have h'' : EClass.entity = c := h'
        exact absurd h''.symm hc
      | some c' =>
        rw [hcf] at h'
        simp only [Option.getD_some] at h'
        rw [← h', classFor_eq s c' hcf]

theorem resolveFrom_of_not_recognized (l : AList) (h : recognizedType l = false) :
    resolveFrom l = .entity := by
  simp only [recognizedType] at h
  simp only [resolveFrom]
  cases ha : alookup l "entityType" with
  | none => rfl
  | some v =>
    rw [ha] at h
    cases v <;> try rfl
    case str s =>
      have h' : (classFor s).isSome = false := h
      show (classFor s).getD EClass.entity = EClass.entity
      cases hc : classFor s with
      | none => rfl
      | some c => rw [hc] at h'; cases h'

theorem stripAnn_none (P : AList) (ha : alookup P "annotations" = none) :
    stripAnn P = P := by
  simp [stripAnn, ha]

theorem stripAnn_not_mapping (P : AList) (nv : Value)
    (ha : alookup P "annotations" = some nv) (hm : isMapping nv = false) :
    stripAnn P = P := by
  simp [stripAnn, ha, hm]

theorem stripAnn_mapping (P : AList) (nv : Value)
    (ha : alookup P "annotations" = some nv) (hm : isMapping nv = true) :
    stripAnn P = adel P "annotations" := by
  simp [stripAnn, ha, hm]

theorem combineAnn_none (P comb : AList) (ha : alookup P "annotations" = none) :
    combineAnn P comb = comb := by
  simp [combineAnn, ha]

theorem combineAnn_not_mapping (P comb : AList) (nv : Value)
    (ha : alookup P "annotations" = some nv) (hm : isMapping nv = false) :
    combineAnn P comb = comb := by
  simp [combineAnn, ha, hm]

theorem combineAnn_mapping (P comb : AList) (nv : Value)
    (ha : alookup P "annotations" = some nv) (hm : isMapping nv = true) :
    combineAnn P comb = aupdate comb (ventries nv) := by
  simp [combineAnn, ha, hm]

theorem entityInit_dobj_spec (c : EClass) (P comb : AList) (kwargs : List (String × Value))
    (hPn : aNodup P = true) (hcn : aNodup comb = true) :
    entityInit c (some (.dobj P)) (some (.dobj comb)) kwargs
      = (List.foldlM (fun acc kv => setItem acc kv.1 kv.2)
          (⟨c, [], .dobj (stripAnn P), .dobj (combineAnn P comb)⟩ : Entity) kwargs
         >>= fun e3 => pure (e3, some (Value.dobj (stripAnn P)))) := by
  have hip : initProps (newEntity c) (some (.dobj P)) (some (.dobj comb))
      = .ok (⟨c, [], .dobj (stripAnn P), .dobj []⟩,
             some (.dobj (stripAnn P)), some (.dobj (combineAnn P comb))) := by
    cases P with
    | nil => rfl
    | cons hd t =>
      have e1 : truthy (Value.dobj (hd :: t)) = true := rfl
      have e2 : isMapping (Value.dobj (hd :: t)) = true := rfl
      have e3 : ventries (Value.dobj (hd :: t)) = hd :: t := rfl
      have e4 : isMapping (Value.dobj comb) = true := rfl
      cases ha : alookup (hd :: t) "annotations" with
      | none =>
        rw [stripAnn_none _ ha, combineAnn_none _ _ ha]
        simp only [initProps, e1, e2, e3, e4, eq_self_iff_true, if_true, ha, newEntity,
          vupdate]
        rw [aupdate_nil _ hPn]
      | some nv =>
        cases hm : isMapping nv with
        | false =>
          rw [stripAnn_not_mapping _ _ ha hm, combineAnn_not_mapping _ _ _ ha hm]
          simp only [initProps, e1, e2, e3, e4, eq_self_iff_true, if_true, ha, hm,
            Bool.false_eq_true, if_false, newEntity, vupdate]
          rw [aupdate_nil _ hPn]
        | true =>
          rw [stripAnn_mapping _ _ ha hm, combineAnn_mapping _ _ _ ha hm]
          simp only [initProps, e1, e2, e3, e4, eq_self_iff_true, if_true, ha, hm,
            newEntity, vupdate, vdel, ventries]
          rw [aupdate_nil _ (aNodup_adel _ _ hPn)]
  have hcfn : aNodup (combineAnn P comb) = true := aNodup_combineAnn P comb hcn
  have hia : initAnnots (⟨c, [], .dobj (stripAnn P), .dobj []⟩ : Entity)
      (some (.dobj (combineAnn P comb)))
      = .ok ⟨c, [], .dobj (stripAnn P), .dobj (combineAnn P comb)⟩ := by
    cases hcf : combineAnn P comb with
    | nil => rfl
    | cons hd t =>
      rw [hcf] at hcfn
      simp only [initAnnots, truthy, isMapping, ventries, List.isEmpty_cons, Bool.not_false,
        if_true, vupdate]
      rw [aupdate_nil _ hcfn]
  have h0 : entityInit c (some (.dobj P)) (some (.dobj comb)) kwargs
      = (initProps (newEntity c) (some (.dobj P)) (some (.dobj comb)) >>= fun s1 =>
         initAnnots s1.1 s1.2.2 >>= fun e2 =>
         List.foldlM (fun acc kv => setItem acc kv.1 kv.2) e2 kwargs >>= fun e3 =>
         pure (e3, s1.2.1)) := rfl
  rw [h0, hip, except_bind_ok]
  show (initAnnots (⟨c, [], .dobj (stripAnn P), .dobj []⟩ : Entity)
      (some (.dobj (combineAnn P comb))) >>= fun e2 =>
      List.foldlM (fun acc kv => setItem acc kv.1 kv.2) e2 kwargs >>= fun e3 =>
      pure (e3, some (Value.dobj (stripAnn P)))) = _
  rw [hia, except_bind_ok]

theorem construct_dobj_spec (c : EClass) (P comb : AList)
    (hPn : aNodup P = true) (hcn : aNodup comb = true)
    (hET : alookup P "entityType" = some (.str (synapseClass c)) ∨
           (c ≠ .project ∧ c ≠ .folder ∧ c ≠ .file)) :
    construct c (some (.dobj P)) (some (.dobj comb))
      = .ok (⟨c, (if c = .file then [("path", .pynone)] else []),
              .dobj (stripAnn P), .dobj (combineAnn P comb)⟩,
             some (.dobj (stripAnn P))) := by
  cases c
  case entity =>
    show entityInit .entity (some (.dobj P)) (some (.dobj comb)) [] = _
    rw [entityInit_dobj_spec _ _ _ _ hPn hcn]
    rfl
  case analysis =>
    show entityInit .analysis (some (.dobj P)) (some (.dobj comb)) [] = _
    rw [entityInit_dobj_spec _ _ _ _ hPn hcn]
    rfl
  case code =>
    show entityInit .code (some (.dobj P)) (some (.dobj comb)) [] = _
    rw [entityInit_dobj_spec _ _ _ _ hPn hcn]
    rfl
  case data =>
    show entityInit .data (some (.dobj P)) (some (.dobj comb)) [] = _
    rw [entityInit_dobj_spec _ _ _ _ hPn hcn]
    rfl
  case study =>
    show entityInit .study (some (.dobj P)) (some (.dobj comb)) [] = _
    rw [entityInit_dobj_spec _ _ _ _ hPn hcn]
    rfl
  case summary =>
    show entityInit .summary (some (.dobj P)) (some (.dobj comb)) [] = _
    rw [entityInit_dobj_spec _ _ _ _ hPn hcn]
    rfl
  case project =>
    have hETl : alookup P "entityType" = some (.str (synapseClass .project)) := by
      cases hET with
      | inl h => exact h
      | inr h => exact absurd rfl h.1
    have hs : alookup (stripAnn P) "entityType"
        = some (.str (synapseClass .project)) := by
      rw [alookup_stripAnn_ne P "entityType" (by decide)]
      exact hETl
    show entityInit .project (some (.dobj P)) (some (.dobj comb))
        [("entityType", .str (synapseClass .project))] = _
    rw [entityInit_dobj_spec _ _ _ _ hPn hcn]
    rw [show (List.foldlM (fun acc kv => setItem acc kv.1 kv.2)
        (⟨.project, [], .dobj (stripAnn P), .dobj (combineAnn P comb)⟩ : Entity)
        [("entityType", Value.str (synapseClass .project))] :
        Except PyErr Entity)
        = .ok ⟨.project, [], .dobj (aset (stripAnn P) "entityType"
            (Value.str (synapseClass .project))), .dobj (combineAnn P comb)⟩ from rfl]
    rw [aset_lookup_eq _ _ _ hs]
    rfl
  case folder =>
    have hETl : alookup P "entityType" = some (.str (synapseClass .folder)) := by
      cases hET with
      | inl h => exact h
      | inr h => exact absurd rfl h.2.1
    have hs : alookup (stripAnn P) "entityType"
        = some (.str (synapseClass .folder)) := by
      rw [alookup_stripAnn_ne P "entityType" (by decide)]
      exact hETl
    show entityInit .folder (some (.dobj P)) (some (.dobj comb))
        [("entityType", .str (synapseClass .folder))] = _
    rw [entityInit_dobj_spec _ _ _ _ hPn hcn]
    rw [show (List.foldlM (fun acc kv => setItem acc kv.1 kv.2)
        (⟨.folder, [], .dobj (stripAnn P), .dobj (combineAnn P comb)⟩ : Entity)
        [("entityType", Value.str (synapseClass .folder))] :
        Except PyErr Entity)
        = .ok ⟨.folder, [], .dobj (aset (stripAnn P) "entityType"
            (Value.str (synapseClass .folder))), .dobj (combineAnn P comb)⟩ from rfl]
    rw [aset_lookup_eq _ _ _ hs]
    rfl
  case file =>
    have hETl : alookup P "entityType" = some (.str (synapseClass .file)) := by
      cases hET with
      | inl h => exact h
      | inr h => exact absurd rfl h.2.2
    have hs : alookup (stripAnn P) "entityType"
        = some (.str (synapseClass .file)) := by
      rw [alookup_stripAnn_ne P "entityType" (by decide)]
      exact hETl
    have hcf : construct .file (some (.dobj P)) (some (.dobj comb))
        = (entityInit .file (some (.dobj P)) (some (.dobj comb))
            [("entityType", .str (synapseClass .file))] >>= fun x =>
           (pure ({ x.1 with internal := aset x.1.internal "path" Value.pynone }, x.2) :
            Except PyErr (Entity × Option Value))) := rfl
    rw [hcf, entityInit_dobj_spec _ _ _ _ hPn hcn]
    rw [show (List.foldlM (fun acc kv => setItem acc kv.1 kv.2)
        (⟨.file, [], .dobj (stripAnn P), .dobj (combineAnn P comb)⟩ : Entity)
        [("entityType", Value.str (synapseClass .file))] :
        Except PyErr Entity)
        = .ok ⟨.file, [], .dobj (aset (stripAnn P) "entityType"
            (Value.str (synapseClass .file))), .dobj (combineAnn P comb)⟩ from rfl]
    rw [aset_lookup_eq _ _ _ hs]
    rfl

theorem create_prototype_spec (p : Entity) (ann : Option Value) (hw : wf p = true)
    (hid : acontains (pentries p) "id" = true) (hann : annOk ann = true) :
    create .entity (some (.ent p)) ann
      = .ok (⟨resolveFrom (adel (pentries p) "id"),
              (if resolveFrom (adel (pentries p) "id") = .file
               then [("path", .pynone)] else []),
              .dobj (cloneProps p), .dobj (cloneAnnots p ann)⟩,
             some { p with props := .dobj (cloneProps p) }) := by
  obtain ⟨⟨pl, hpv, hpn⟩, ⟨al, hav, han⟩, _, _, _⟩ := wf_dest p hw
  have hpe : pentries p = pl := by simp [pentries, hpv, ventries]
  have hae : aentries p = al := by simp [aentries, hav, ventries]
  have hidl : acontains pl "id" = true := by rw [← hpe]; exact hid
  have hca : dobjAdd p.annots ann = .ok (.dobj (aupdate al (annEntries ann))) := by
    rw [hav]
    cases ann with
    | none => rfl
    | some av => cases av <;> simp [annOk, isMapping] at hann <;> rfl
  have hdid : vdelE p.props "id" = .ok (.dobj (adel pl "id")) := by
    rw [hpv]
    simp [vdelE, hidl]
  have hPn : aNodup (adel pl "id") = true := aNodup_adel pl "id" hpn
  have hcn : aNodup (aupdate al (annEntries ann)) = true :=
    aNodup_aupdate al (annEntries ann) han
  have hET : alookup (adel pl "id") "entityType"
      = some (.str (synapseClass (resolveFrom (adel pl "id")))) ∨
      (resolveFrom (adel pl "id") ≠ .project ∧
       resolveFrom (adel pl "id") ≠ .folder ∧
       resolveFrom (adel pl "id") ≠ .file) := by
    cases hrc : resolveFrom (adel pl "id")
    case project => exact Or.inl (resolveFrom_lookup _ _ hrc (by decide))
    case folder => exact Or.inl (resolveFrom_lookup _ _ hrc (by decide))
    case file => exact Or.inl (resolveFrom_lookup _ _ hrc (by decide))
    all_goals exact Or.inr ⟨by decide, by decide, by decide⟩
  have h1 : create .entity (some (.ent p)) ann
      = (dobjAdd p.annots ann >>= fun comb =>
         vdelE p.props "id" >>= fun props1 =>
         resolveClass .entity (some props1) >>= fun cls2 =>
         construct cls2 (some props1) (some comb) >>= fun x =>
         pure (x.1, some { p with props := x.2.getD props1 })) := rfl
  rw [h1, hca, except_bind_ok, hdid, except_bind_ok]
  rw [show resolveClass EClass.entity (some (Value.dobj (adel pl "id")))
      = .ok (resolveFrom (adel pl "id")) from rfl, except_bind_ok]
  rw [construct_dobj_spec (resolveFrom (adel pl "id")) (adel pl "id")
      (aupdate al (annEntries ann)) hPn hcn hET, except_bind_ok]
  have hcp : cloneProps p = stripAnn (adel pl "id") := by
    simp only [cloneProps, hpe]
  have hcla : cloneAnnots p ann = combineAnn (adel pl "id") (aupdate al (annEntries ann)) := by
    simp only [cloneAnnots, hpe, hae]
  rw [hcp, hcla, hpe]
  rfl

/-! # Claims -/

/-- Claim C1: for every entity and key, a read resolves in the fixed
priority order — instance state, then `properties`, then `annotations` —
returning the first value found, failing with `KeyError` when the key is
absent from all three namespaces; and attribute-style and mapping-style
reads resolve identically. -/
theorem c1_read_resolution (e : Entity) (k : String) :
    getAttr e k = getItem e k ∧
    getItem e k =
      (match (dictGet e k).or ((alookup (pentries e) k).or (alookup (aentries e) k)) with
       | some v => Except.ok v
       | none => Except.error (.keyError k)) := by
  refine ⟨?_, ?_⟩
  · cases h : dictGet e k <;> simp only [getAttr, getItem, h]
  · cases h1 : dictGet e k with
    | some v => simp [getItem, h1, Option.or]
    | none =>
      cases h2 : alookup (pentries e) k <;> cases h3 : alookup (aentries e) k <;>
        simp [getItem, h1, h2, h3, Option.or]

/-- Claim C2: for every entity, writing key `k` (by either notation)
overwrites an existing instance field named `k` directly — with the value
coerced to the `DictObject` representation when `k` is literally
`annotations` — and otherwise writes declared property keys into
`properties` and every other key into `annotations`, never creating a new
instance field. -/
theorem c2_write_resolution (e : Entity) (k : String) (v : Value) :
    setAttr e k v = setItem e k v ∧
    (dictContains e k = true → k ≠ "annotations" →
      setItem e k v = .ok (dictSet e k v)) ∧
    (isMapping v = true →
      setItem e "annotations" v = .ok { e with annots := .dobj (ventries v) }) ∧
    (dictContains e k = false → k ∈ propertyKeys e.cls →
      setItem e k v = .ok { e with props := vset e.props k v }) ∧
    (dictContains e k = false → k ∉ propertyKeys e.cls →
      setItem e k v = .ok { e with annots := vset e.annots k v }) := by
  refine ⟨rfl, ?_, ?_, ?_, ?_⟩
  · intro h hk
    simp [setItem, h, hk]
  · intro hm
    cases v <;> simp [isMapping] at hm <;> rfl
  · intro hd hp
    simp [setItem, hd, hp]
  · intro hd hp
    simp [setItem, hd, hp]

/-- Witness for C2 at a concrete input: on a fresh `Project`, assigning
the unrecognized key `foo` lands in the annotations. -/
theorem c2_write_resolution_witness :
    setItem (newEntity .project) "foo" (.str "bar")
      = .ok { newEntity .project with
          annots := vset (newEntity .project).annots "foo" (.str "bar") } :=
  (c2_write_resolution (newEntity .project) "foo" (.str "bar")).2.2.2.2
    (by decide) (by decide)

/-- Claim C5: the key-membership test is true exactly on the union of
property and annotation keys, and enumeration produces exactly that
union; internal-state-only fields and unknown keys are excluded from
both. -/
theorem c5_membership (e : Entity) (k : String) :
    (has_key e k = true ↔ (k ∈ akeys (pentries e) ∨ k ∈ akeys (aentries e))) ∧
    (k ∈ keysOf e ↔ (k ∈ akeys (pentries e) ∨ k ∈ akeys (aentries e))) ∧
    (acontains e.internal k = true → acontains (pentries e) k = false →
      acontains (aentries e) k = false → has_key e k = false ∧ k ∉ keysOf e) := by
  refine ⟨?_, ?_, ?_⟩
  · simp only [has_key, Bool.or_eq_true, acontains_iff_mem]
  · simp only [keysOf, List.mem_dedup, List.mem_append]
  · intro _ hp ha
    constructor
    · simp [has_key, hp, ha]
    · simp only [keysOf, List.mem_dedup, List.mem_append]
      rintro (hm | hm) <;> rw [← acontains_iff_mem] at hm
      · rw [hp] at hm; cases hm
      · rw [ha] at hm; cases hm

/-- Witness for C5 at a concrete input: a `File`-shaped entity whose
local path lives only in internal state is not reported by `has_key` nor
enumerated. -/
theorem c5_membership_witness :
    has_key ⟨.file, [("path", .str "/tmp/x")], .dobj [("name", .str "x")],
        .dobj [("foo", .int 1)]⟩ "path" = false ∧
    "path" ∉ keysOf ⟨.file, [("path", .str "/tmp/x")], .dobj [("name", .str "x")],
        .dobj [("foo", .int 1)]⟩ :=
  (c5_membership ⟨.file, [("path", .str "/tmp/x")], .dobj [("name", .str "x")],
      .dobj [("foo", .int 1)]⟩ "path").2.2 (by decide) (by decide) (by decide)

/-- Claim C7: coercion is idempotent — `to_entity` passes entities
through unchanged (the same instance), so coercing an already-coerced
value is a no-op. -/
theorem c7_to_entity_idempotent :
    (∀ e : Entity, to_entity (.ent e) = .ok e) ∧
    (∀ (x : PropsArg) (e : Entity), to_entity x = .ok e → to_entity (.ent e) = .ok e) :=
  ⟨fun _ => rfl, fun _ _ _ => rfl⟩

/-- Witness for C7 at a concrete input: coercing a raw payload and then
coercing the result again returns it unchanged. -/
theorem c7_to_entity_idempotent_witness :
    to_entity (.ent (newEntity .entity)) = .ok (newEntity .entity) :=
  c7_to_entity_idempotent.2 (.val (.dict [])) (newEntity .entity) rfl

/-- Claim C8: deletion removes the key from whichever of `properties` or
`annotations` contains it (checking `properties` first), is a silent
no-op when the key is absent from both, and never touches internal-state
fields. -/
theorem c8_deletion (e : Entity) (k : String) (hw : wf e = true) :
    (acontains (pentries e) k = true →
      delItem e k = { e with props := vdel e.props k } ∧
      acontains (pentries (delItem e k)) k = false ∧
      aentries (delItem e k) = aentries e ∧
      (delItem e k).internal = e.internal) ∧
    (acontains (pentries e) k = false → acontains (aentries e) k = true →
      delItem e k = { e with annots := vdel e.annots k } ∧
      acontains (aentries (delItem e k)) k = false ∧
      pentries (delItem e k) = pentries e ∧
      (delItem e k).internal = e.internal) ∧
    (acontains (pentries e) k = false → acontains (aentries e) k = false →
      delItem e k = e) := by
  obtain ⟨⟨pl, hpv, hpn⟩, ⟨al, hav, han⟩, _, _, _⟩ := wf_dest e hw
  have hpe : pentries e = pl := by simp [pentries, hpv, ventries]
  have hae : aentries e = al := by simp [aentries, hav, ventries]
  refine ⟨?_, ?_, ?_⟩
  · intro hp
    have hd : delItem e k = { e with props := vdel e.props k } := by
      simp [delItem, hp]
    refine ⟨hd, ?_, ?_, ?_⟩
    · rw [hd]
      simp only [pentries, hpv, vdel, ventries]
      rw [hpe] at hp
      exact acontains_adel_self pl k hpn
    · rw [hd]
      rfl
    · rw [hd]
  · intro hp ha
    have hd : delItem e k = { e with annots := vdel e.annots k } := by
      simp [delItem, hp, ha]
    refine ⟨hd, ?_, ?_, ?_⟩
    · rw [hd]
      simp only [aentries, hav, vdel, ventries]
      rw [hae] at ha
      exact acontains_adel_self al k han
    · rw [hd]
      rfl
    · rw [hd]
  · intro hp ha
    simp [delItem, hp, ha]

/-- Witness for C8 at a concrete input: deleting a property key removes
it from `properties` and leaves annotations and internal state alone. -/
theorem c8_deletion_witness :
    delItem ⟨.project, [], .dobj [("name", .str "x")], .dobj [("foo", .int 1)]⟩ "name"
      = { (⟨.project, [], .dobj [("name", .str "x")], .dobj [("foo", .int 1)]⟩ : Entity) with
          props := vdel (Value.dobj [("name", .str "x")]) "name" } ∧
    acontains (pentries (delItem ⟨.project, [], .dobj [("name", .str "x")],
        .dobj [("foo", .int 1)]⟩ "name")) "name" = false ∧
    aentries (delItem ⟨.project, [], .dobj [("name", .str "x")],
        .dobj [("foo", .int 1)]⟩ "name")
      = aentries ⟨.project, [], .dobj [("name", .str "x")], .dobj [("foo", .int 1)]⟩ ∧
    (delItem ⟨.project, [], .dobj [("name", .str "x")],
        .dobj [("foo", .int 1)]⟩ "name").internal = [] :=
  (c8_deletion ⟨.project, [], .dobj [("name", .str "x")], .dobj [("foo", .int 1)]⟩
    "name" (by decide)).1 (by decide)

/-- Claim C4 (code bug): constructing an entity from a raw payload that
carries a nested `annotations` mapping, with no separate annotations
argument, does not route the nested entries into the annotations
container — `__init__` calls `annotations.update(...)` on `None` and the
construction crashes with `AttributeError`.  Supplying an annotations
mapping makes the same payload construct as the claim describes. -/
theorem c4_nested_annotations_crash :
    create .entity
      (some (.val (.dict [("annotations", .dict [("foo", .int 1)]), ("name", .str "x")])))
      none
      = .error (.attributeError ("NoneType object has no attribute update")) ∧
    construct .entity
      (some (.dict [("annotations", .dict [("foo", .int 1)]), ("name", .str "x")]))
      none
      = .error (.attributeError ("NoneType object has no attribute update")) ∧
    create .entity
      (some (.val (.dict [("annotations", .dict [("foo", .int 1)]), ("name", .str "x")])))
      (some (.dict [("b", .int 2)]))
      = .ok (⟨.entity, [], .dobj [("name", .str "x")],
          .dobj [("b", .int 2), ("foo", .int 1)]⟩, none) :=
  ⟨rfl, rfl, rfl⟩

/-- Claim C10, counterexample: in a well-formed entity holding the same
key in internal state, `properties` and `annotations`, deleting the key
removes only the `properties` entry and leaves the `annotations` entry in
place — but a subsequent read returns the internal-state value, not the
annotations entry, so the claim's final clause fails here. -/
theorem c10_shadow_counterexample :
    wf ⟨.file, [("path", .str "/local/file")], .dobj [("path", .str "p")],
        .dobj [("path", .str "q")]⟩ = true ∧
    pentries (delItem ⟨.file, [("path", .str "/local/file")], .dobj [("path", .str "p")],
        .dobj [("path", .str "q")]⟩ "path") = [] ∧
    aentries (delItem ⟨.file, [("path", .str "/local/file")], .dobj [("path", .str "p")],
        .dobj [("path", .str "q")]⟩ "path") = [("path", .str "q")] ∧
    getItem (delItem ⟨.file, [("path", .str "/local/file")], .dobj [("path", .str "p")],
        .dobj [("path", .str "q")]⟩ "path") "path" = .ok (.str "/local/file") ∧
    getItem (delItem ⟨.file, [("path", .str "/local/file")], .dobj [("path", .str "p")],
        .dobj [("path", .str "q")]⟩ "path") "path" ≠ .ok (.str "q") :=
  ⟨rfl, rfl, rfl, rfl,
    fun h => absurd (Value.str.inj (Except.ok.inj h)) (by decide)⟩

/-- Claim C10 as amended: when the doubled key does not additionally name
an internal-state field, a single deletion removes only the `properties`
entry, leaves the `annotations` entry unchanged, and subsequent reads of
the key return the annotations value. -/
theorem c10_delete_doubled_key (e : Entity) (k : String) (hw : wf e = true)
    (hd : dictContains e k = false)
    (hp : acontains (pentries e) k = true)
    (ha : acontains (aentries e) k = true) :
    delItem e k = { e with props := vdel e.props k } ∧
    aentries (delItem e k) = aentries e ∧
    acontains (pentries (delItem e k)) k = false ∧
    (∃ v, alookup (aentries e) k = some v ∧ getItem (delItem e k) k = .ok v) := by
  obtain ⟨⟨pl, hpv, hpn⟩, ⟨al, hav, han⟩, hni, hip, hia⟩ := wf_dest e hw
  have hpe : pentries e = pl := by simp [pentries, hpv, ventries]
  have hae : aentries e = al := by simp [aentries, hav, ventries]
  have hk1 : k ≠ "properties" := by
    intro hh
    rw [hh] at hd
    simp [dictContains] at hd
  have hk2 : k ≠ "annotations" := by
    intro hh
    rw [hh] at hd
    simp [dictContains] at hd
  have hk3 : acontains e.internal k = false := by
    cases hc : acontains e.internal k with
    | false => rfl
    | true => simp [dictContains, hc] at hd
  have hdel : delItem e k = { e with props := vdel e.props k } := by
    simp [delItem, hp]
  have hpe' : pentries { e with props := vdel e.props k } = adel pl k := by
    simp [pentries, hpv, vdel, ventries]
  have hae' : aentries { e with props := vdel e.props k } = al := by
    simp [aentries, hav, ventries]
  refine ⟨hdel, by rw [hdel]; rfl, ?_, ?_⟩
  · rw [hdel, hpe']
    rw [hpe] at hp
    exact acontains_adel_self pl k hpn
  · rw [hae] at ha
    have hex : ∃ v, alookup al k = some v := by
      cases hl : alookup al k with
      | none => simp [acontains, hl] at ha
      | some v => exact ⟨v, rfl⟩
    obtain ⟨v, hv⟩ := hex
    refine ⟨v, by rw [hae]; exact hv, ?_⟩
    rw [hdel]
    have hdg : dictGet { e with props := vdel e.props k } k = none := by
      simp only [dictGet]
      rw [if_neg hk1, if_neg hk2]
      exact alookup_none_of_acontains_false e.internal k hk3
    have hpnone : alookup (pentries { e with props := vdel e.props k }) k = none := by
      rw [hpe']
      exact alookup_none_of_acontains_false (adel pl k) k (acontains_adel_self pl k hpn)
    simp only [getItem, hdg, hpnone, hae', hv]

/-- Witness for the amended C10 at a concrete input. -/
theorem c10_delete_doubled_key_witness :
    ∃ v, alookup (aentries (⟨.project, [], .dobj [("dup", .int 1)],
        .dobj [("dup", .int 2)]⟩ : Entity)) "dup" = some v ∧
      getItem (delItem ⟨.project, [], .dobj [("dup", .int 1)],
        .dobj [("dup", .int 2)]⟩ "dup") "dup" = .ok v :=
  (c10_delete_doubled_key ⟨.project, [], .dobj [("dup", .int 1)], .dobj [("dup", .int 2)]⟩
    "dup" (by decide) (by decide) (by decide) (by decide)).2.2.2

/-- Claim C6: a payload whose `entityType` field holds a registered
Synapse class string, passed to the base factory, constructs the matching
registered variant; without a recognized identifier (or when a concrete
variant is requested), the requested variant is constructed. -/
theorem c6_dispatch (cls : EClass) (l : AList) (s : String) (c : EClass) :
    (alookup l "entityType" = some (.str s) → classFor s = some c →
      ∀ r, create .entity (some (.val (.dict l))) none = .ok r → r.1.cls = c) ∧
    ((cls ≠ .entity ∨ recognizedType l = false) →
      ∀ r, create cls (some (.val (.dict l))) none = .ok r → r.1.cls = cls) := by
  constructor
  · intro h1 h2 r hr
    have hcls : resolveFrom l = c := by
      simp [resolveFrom, h1, h2]
    have hr' : (construct (resolveFrom l) (some (.dict l)) none >>= fun x =>
        (pure (x.1, (none : Option Entity)) : Except PyErr (Entity × Option Entity)))
        = .ok r := hr
    rw [hcls] at hr'
    cases hc : construct c (some (.dict l)) none with
    | error msg => rw [hc] at hr'; cases hr'
    | ok x =>
      rw [hc] at hr'
      simp only [except_bind_ok] at hr'
      have hr'' : Except.ok (x.1, (none : Option Entity)) = Except.ok r := hr'
      injection hr'' with h3
      rw [← h3]
      obtain ⟨e, pf⟩ := x
      exact construct_cls c _ _ e pf hc
  · intro hor r hr
    by_cases hcl : cls = EClass.entity
    · subst hcl
      have hrec : recognizedType l = false := by
        cases hor with
        | inl h => exact absurd rfl h
        | inr h => exact h
      have hrf := resolveFrom_of_not_recognized l hrec
      have hr' : (construct (resolveFrom l) (some (.dict l)) none >>= fun x =>
          (pure (x.1, (none : Option Entity)) : Except PyErr (Entity × Option Entity)))
          = .ok r := hr
      rw [hrf] at hr'
      cases hc : construct .entity (some (.dict l)) none with
      | error msg => rw [hc] at hr'; cases hr'
      | ok x =>
        rw [hc] at hr'
        simp only [except_bind_ok] at hr'
        have hr'' : Except.ok (x.1, (none : Option Entity)) = Except.ok r := hr'
        injection hr'' with h3
        rw [← h3]
        obtain ⟨e, pf⟩ := x
        exact construct_cls .entity _ _ e pf hc
    · have hres : resolveClass cls (some (.dict l)) = .ok cls := by
        simp [resolveClass, hcl]
      simp only [create] at hr
      rw [hres] at hr
      simp only [except_bind_ok] at hr
      cases hc : construct cls (some (.dict l)) none with
      | error msg => rw [hc] at hr; cases hr
      | ok x =>
        rw [hc] at hr
        simp only [except_bind_ok] at hr
        have hr'' : Except.ok (x.1, (none : Option Entity)) = Except.ok r := hr
        injection hr'' with h3
        rw [← h3]
        obtain ⟨e, pf⟩ := x
        exact construct_cls cls _ _ e pf hc

/-- Claim C3, counterexample: for a well-formed prototype whose
properties are exactly an identifier plus a mapping stored under the key
`annotations`, the clone's properties are not "the prototype's properties
minus the identifier": the `annotations` entry is missing from them
(it is merged into the annotations container instead). -/
theorem c3_prototype_counterexample :
    wf ⟨.entity, [], .dobj [("id", .str "syn123"),
        ("annotations", .dict [("a", .int 1)])], .dobj []⟩ = true ∧
    (create .entity (some (.ent ⟨.entity, [], .dobj [("id", .str "syn123"),
        ("annotations", .dict [("a", .int 1)])], .dobj []⟩)) none).map
      (fun r => acontains (pentries r.1) "annotations") = .ok false ∧
    acontains (adel (pentries ⟨.entity, [], .dobj [("id", .str "syn123"),
        ("annotations", .dict [("a", .int 1)])], .dobj []⟩) "id") "annotations" = true ∧
    (create .entity (some (.ent ⟨.entity, [], .dobj [("id", .str "syn123"),
        ("annotations", .dict [("a", .int 1)])], .dobj []⟩)) none).map
      (fun r => alookup (aentries r.1) "a") = .ok (some (.int 1)) :=
  ⟨rfl, rfl, rfl, rfl⟩

/-- Claim C3 as amended: for every well-formed entity `e` with an
identifier property (and a mapping — or absent — annotations argument),
`create(properties=e)` yields a new entity with no identifier field,
whose properties are `e`'s properties minus the identifier and minus any
mapping stored under the key `annotations`, and whose annotations combine
`e`'s annotations, the (optional) supplied annotations, and that nested
mapping — including when no annotations argument is supplied. -/
theorem c3_prototype_clone (p : Entity) (ann : Option Value) (hw : wf p = true)
    (hid : acontains (pentries p) "id" = true) (hann : annOk ann = true) :
    ∃ e, create .entity (some (.ent p)) ann
        = .ok (e, some { p with props := .dobj (cloneProps p) }) ∧
      pentries e = cloneProps p ∧
      aentries e = cloneAnnots p ann ∧
      acontains (pentries e) "id" = false := by
  refine ⟨_, create_prototype_spec p ann hw hid hann, rfl, rfl, ?_⟩
  obtain ⟨⟨pl, hpv, hpn⟩, _, _, _, _⟩ := wf_dest p hw
  have hpe : pentries p = pl := by simp [pentries, hpv, ventries]
  show acontains (cloneProps p) "id" = false
  simp only [cloneProps, acontains]
  rw [alookup_stripAnn_ne _ "id" (by decide), hpe]
  exact acontains_adel_self pl "id" hpn

/-- Witness for the amended C3 at a concrete prototype. -/
theorem c3_prototype_clone_witness :
    ∃ e, create .entity (some (.ent ⟨.entity, [], .dobj [("id", .str "syn1"),
          ("name", .str "n")], .dobj [("a", .int 1)]⟩)) none
        = .ok (e, some { (⟨.entity, [], .dobj [("id", .str "syn1"), ("name", .str "n")],
              .dobj [("a", .int 1)]⟩ : Entity) with
            props := .dobj (cloneProps ⟨.entity, [], .dobj [("id", .str "syn1"),
              ("name", .str "n")], .dobj [("a", .int 1)]⟩) }) ∧
      pentries e = cloneProps ⟨.entity, [], .dobj [("id", .str "syn1"),
        ("name", .str "n")], .dobj [("a", .int 1)]⟩ ∧
      aentries e = cloneAnnots ⟨.entity, [], .dobj [("id", .str "syn1"),
        ("name", .str "n")], .dobj [("a", .int 1)]⟩ none ∧
      acontains (pentries e) "id" = false :=
  c3_prototype_clone ⟨.entity, [], .dobj [("id", .str "syn1"), ("name", .str "n")],
    .dobj [("a", .int 1)]⟩ none (by decide) (by decide) (by decide)

/-- Claim C9: for every well-formed entity passed as the `properties`
argument of `create` (holding an identifier property), the prototype
itself is mutated: its `id` property is deleted in place, its other
properties (apart from a possible nested `annotations` mapping), its
annotations, its internal state and its class are untouched. -/
theorem c9_prototype_mutation (p : Entity) (ann : Option Value) (hw : wf p = true)
    (hid : acontains (pentries p) "id" = true) (hann : annOk ann = true) :
    ∃ e pr, create .entity (some (.ent p)) ann = .ok (e, some pr) ∧
      pr.cls = p.cls ∧ pr.internal = p.internal ∧ pr.annots = p.annots ∧
      acontains (pentries pr) "id" = false ∧
      (∀ j, j ≠ "id" → j ≠ "annotations" →
        alookup (pentries pr) j = alookup (pentries p) j) := by
  refine ⟨_, _, create_prototype_spec p ann hw hid hann, rfl, rfl, rfl, ?_, ?_⟩
  · obtain ⟨⟨pl, hpv, hpn⟩, _, _, _, _⟩ := wf_dest p hw
    have hpe : pentries p = pl := by simp [pentries, hpv, ventries]
    show acontains (cloneProps p) "id" = false
    simp only [cloneProps, acontains]
    rw [alookup_stripAnn_ne _ "id" (by decide), hpe]
    exact acontains_adel_self pl "id" hpn
  · intro j hj1 hj2
    show alookup (cloneProps p) j = alookup (pentries p) j
    simp only [cloneProps]
    rw [alookup_stripAnn_ne _ j hj2, alookup_adel_ne _ j "id" hj1]

/-- Witness for C9 at a concrete prototype. -/
theorem c9_prototype_mutation_witness :
    ∃ e pr, create .entity (some (.ent ⟨.project, [],
        .dobj [("name", .str "w"), ("id", .str "syn77")], .dobj []⟩)) none
      = .ok (e, some pr) ∧
      pr.cls = .project ∧ pr.internal = [] ∧ pr.annots = .dobj [] ∧
      acontains (pentries pr) "id" = false ∧
      (∀ j, j ≠ "id" → j ≠ "annotations" →
        alookup (pentries pr) j
          = alookup (pentries ⟨.project, [],
              .dobj [("name", .str "w"), ("id", .str "syn77")], .dobj []⟩) j) :=
  c9_prototype_mutation ⟨.project, [], .dobj [("name", .str "w"), ("id", .str "syn77")],
    .dobj []⟩ none (by decide) (by decide) (by decide)

/-- Witness for C6 at the concrete payload from the spec: the Folder
identifier dispatches to the Folder variant. -/
theorem c6_dispatch_witness :
    ∃ r, create .entity (some (.val (.dict
        [("entityType", .str "org.sagebionetworks.repo.model.Folder"),
         ("name", .str "x"), ("parentId", .str "syn1")]))) none = .ok r ∧
      r.1.cls = .folder :=
  ⟨(⟨.folder, [],
      .dobj [("entityType", .str "org.sagebionetworks.repo.model.Folder"),
             ("name", .str "x"), ("parentId", .str "syn1")], .dobj []⟩, none),
    rfl,
    (c6_dispatch .entity
      [("entityType", .str "org.sagebionetworks.repo.model.Folder"),
       ("name", .str "x"), ("parentId", .str "syn1")]
      "org.sagebionetworks.repo.model.Folder" .folder).1 rfl rfl _ rfl⟩

end SynapseEntity
